import Mathlib

/-!
Verification of the `chemidr` identifier-resolution module (`chemidr/id_map.py`).

The module is a thin client over PubChem PUG-REST and NCBI E-utilities.  We give a
shallow embedding of its functions:

* network I/O is modelled by an explicit, finite stream of `Response`s that the
  (possibly retrying) fetcher consumes — one stream element per HTTP GET of the
  same URL; an exhausted stream while the fetcher is still retrying models the
  unbounded retry loop failing to return;
* `json.loads` and `lxml.etree` parsing are oracles supplied through an `Env`
  record (their output shape is all the code inspects);
* Python's `np.nan` absent-sentinel is modelled by `Option.none`;
* an uncaught Python exception is the `Outcome.error` constructor, and the fetch
  loop never returning is `Outcome.stall`.
-/

namespace Chemidr

/-- An HTTP response as observed by `__safe_urlopen__`: a numeric status code and
the raw body (`response.content`). -/
structure Response where
  status : Nat
  content : String

/-- Shallow embedding of `__safe_urlopen__` (id_map.py lines 121-152).  The input
list is the successive responses the server gives to repeated GETs of one URL.
`some (some b)` models returning the body `b` (status 200); `some none` models
returning Python `None` (status 404, or any unhandled status, where control falls
off the end of the function); `none` means every supplied response made the
function retry (status 429 after a 0.5 s sleep, status 503 after a 1 s sleep), so
within this finite observation the call never returned. -/
def safe_urlopen : List Response → Option (Option String)
  | [] => none
  | r :: rest =>
    if r.status = 200 then some (some r.content)
    else if r.status = 429 then safe_urlopen rest
    else if r.status = 503 then safe_urlopen rest
    else if r.status = 404 then some none
    else some none

/-- Section sizes produced by `np.array_split(a, k)` on an array of length `n`
(for `k > 0`): the first `n % k` sections have `n / k + 1` elements and the
remaining `k - n % k` sections have `n / k` elements (larger sections first),
exactly as documented by numpy. -/
def splitSizes (n k : Nat) : List Nat :=
  (List.range k).map (fun i => if i < n % k then n / k + 1 else n / k)

/-- Cut a list into consecutive chunks of the given sizes. -/
def takeChunks {α : Type} : List Nat → List α → List (List α)
  | [], _ => []
  | s :: ss, l => l.take s :: takeChunks ss (l.drop s)

/-- Shallow embedding of `np.array_split(np.asarray(l), k)` (followed by
`tolist`).  numpy raises `ValueError: number sections must be larger than 0.`
when `k = 0`; that exception is modelled by `none`. -/
def array_split {α : Type} (l : List α) (k : Nat) : Option (List (List α)) :=
  if k = 0 then none else some (takeChunks (splitSizes l.length k) l)

/-- Shallow embedding of `__divide_list__` (id_map.py lines 112-118):
`num_divisions = int(math.ceil(len(ids) / 100))` followed by `np.array_split`.
The ceiling of the exact rational `n / 100` is `(n + 99) / 100` in natural
division (Python computes it through floats, which agree on all list lengths
remotely reachable in practice). -/
def divide_list (ids : List String) : Option (List (List String)) :=
  array_split ids ((ids.length + 99) / 100)

/-- JSON values as produced by `json.loads`, restricted to the shapes the module
inspects (strings, integers, arrays, objects). -/
inductive Json where
  | str : String → Json
  | num : Int → Json
  | arr : List Json → Json
  | obj : List (String × Json) → Json

mutual

/-- Structural equality on JSON values (Python `==` on decoded values). -/
def Json.beq : Json → Json → Bool
  | .str a, .str b => a == b
  | .num a, .num b => a == b
  | .arr a, .arr b => Json.beqList a b
  | .obj a, .obj b => Json.beqObj a b
  | _, _ => false

/-- Elementwise equality of JSON arrays. -/
def Json.beqList : List Json → List Json → Bool
  | [], [] => true
  | a :: as, b :: bs => Json.beq a b && Json.beqList as bs
  | _, _ => false

/-- Pairwise equality of JSON object entry lists. -/
def Json.beqObj : List (String × Json) → List (String × Json) → Bool
  | [], [] => true
  | (ka, va) :: as, (kb, vb) :: bs => ka == kb && Json.beq va vb && Json.beqObj as bs
  | _, _ => false

end

instance : BEq Json := ⟨Json.beq⟩

/-- Python subscripting `j[key]` on a decoded JSON value: a present object key
yields its value, a missing key raises `KeyError`, and subscripting a non-object
by a string raises `TypeError`. -/
def Json.getItem : Json → String → Except String Json
  | .obj kvs, k =>
    match kvs.lookup k with
    | some v => .ok v
    | none => .error ("KeyError: " ++ k)
  | _, _ => .error "TypeError: value is not subscriptable by a string key"

/-- Python iteration over a decoded JSON value, as used by the comprehensions
`for p in ...`: only arrays are modelled as iterable. -/
def Json.asArr : Json → Except String (List Json)
  | .arr xs => .ok xs
  | _ => .error "TypeError: value is not iterable"

/-- Python `l[0]` on a decoded JSON value: the head of a non-empty array;
an empty array raises `IndexError`. -/
def pyIndex0 : Json → Except String Json
  | .arr [] => .error "IndexError: list index out of range"
  | .arr (x :: _) => .ok x
  | _ => .error "TypeError: value is not subscriptable by an index"

/-- Python `str()` of a decoded JSON scalar, as used by f-string interpolation of
the substance id into a URL.  (Non-scalar reprs never occur on the modelled
paths and are not reproduced.) -/
def Json.pyStr : Json → String
  | .str s => s
  | .num n => toString n
  | .arr _ => "non-scalar"
  | .obj _ => "non-scalar"

/-- Python `count != 0` on the decoded JSON value `count`: false only for the
number 0 (a JSON string such as a decoded "0" compares unequal to the int 0). -/
def jsonNeZero : Json → Bool
  | .num n => n != 0
  | _ => true

/-- Shallow embedding of `__safe_object_access__` (id_map.py lines 74-78):
`obj[key] if key in obj else np.nan`.  On an object, a present key yields its
value and a missing key yields the absent-sentinel (`none` for `np.nan`); the
`in` operator on the non-object values the module never passes is not modelled
beyond a `TypeError`. -/
def safe_object_access (obj : Json) (key : String) : Except String (Option Json)
  :=
  match obj with
  | .obj kvs =>
    match kvs.lookup key with
    | some v => .ok (some v)
    | none => .ok none
  | _ => .error "TypeError: argument is not a container"

/-- An XML element as observed through lxml: the list of text nodes its
`xpath` text query returns. -/
structure XmlElem where
  texts : List String

/-- A parsed XML document as observed by the module: the `findall` result lists
for the two namespaced tags it ever queries (`CanonicalSMILES` under the
PUG-REST namespace, `PC-CompoundType_id_cid` under the NCBI namespace). -/
structure XmlRoot where
  smiles : List XmlElem
  cids : List XmlElem

/-- The ambient oracles: the HTTP server (response stream per URL), the JSON
decoder (`json.loads`), and the XML parser (`etree.fromstring`, which raises on
malformed input — the `Except.error` case). -/
structure Env where
  server : String → List Response
  jsonParse : String → Except String Json
  xmlParse : String → Except String XmlRoot

/-- Result of running one of the module's operations: it either returns a value,
raises an uncaught Python exception, or never returns because the fetch retry
loop exhausted every supplied response while still retrying. -/
inductive Outcome (α : Type) where
  | stall : Outcome α
  | error : String → Outcome α
  | ok : α → Outcome α

/-- The inner record of `mesh2pid`'s result: the original MeSH term and the
possibly-absent substance and compound ids (`none` models `np.nan`; string
values extracted from XML are wrapped as `Json.str`). -/
structure MeshRec where
  mesh : String
  sid : Option Json
  cid : Option Json

/-- The PUG-REST URL built by `cid2smile`. -/
def smileUrl (cid : String) : String :=
  "https://pubchem.ncbi.nlm.nih.gov/rest/pug/compound/cid/" ++ cid ++
    "/property/CanonicalSMILES/XML"

/-- The E-utilities search URL built by `mesh2pid`. -/
def searchUrl (mesh : String) : String :=
  "https://eutils.ncbi.nlm.nih.gov/entrez/eutils/esearch.fcgi?db=pcsubstance&term="
    ++ mesh ++ "&retmode=json"

/-- The PUG-REST substance URL built by `mesh2pid` (f-string interpolation of
the decoded substance id). -/
def sidUrl (sid : Json) : String :=
  "https://pubchem.ncbi.nlm.nih.gov/rest/pug/substance/sid/" ++ sid.pyStr ++ "/xml"

/-- The subexpression `j['esearchresult']['count']` of `mesh2pid`. -/
def searchCount (j : Json) : Except String Json :=
  match j.getItem "esearchresult" with
  | .error e => .error e
  | .ok e => e.getItem "count"

/-- The subexpression `j['esearchresult']['idlist'][0]` of `mesh2pid`. -/
def searchSid (j : Json) : Except String Json :=
  match j.getItem "esearchresult" with
  | .error e => .error e
  | .ok e =>
    match e.getItem "idlist" with
    | .error e2 => .error e2
    | .ok il => pyIndex0 il

/-- Shallow embedding of `cid2smile` (id_map.py lines 155-179): build the
CanonicalSMILES XML URL, fetch it, return the absent-sentinel on a `None` fetch
result, otherwise parse the XML and take the first text node of the first
`CanonicalSMILES` element (each `[0]` raising `IndexError` when its list is
empty). -/
def cid2smile (cid : String) (env : Env) : Outcome (Option String) :=
  match safe_urlopen (env.server (smileUrl cid)) with
  | none => .stall
  | some none => .ok none
  | some (some xml) =>
    match env.xmlParse xml with
    | .error e => .error e
    | .ok root =>
      match root.smiles with
      | [] => .error "IndexError: list index out of range"
      | el :: _ =>
        match el.texts with
        | [] => .error "IndexError: list index out of range"
        | t :: _ => .ok (some t)

/-- Shallow embedding of `mesh2pid` (id_map.py lines 182-230).  Search the
substance database for the MeSH term; on a failed fetch or a zero search count
return the all-absent record; otherwise take the first substance id and fetch
its substance XML.  If that fetch returns `None` the source executes
`return {mesh : {..., 'cid' : cid}}` with `cid` never assigned, raising
`NameError`; otherwise the compound id is the first text of the first
`PC-CompoundType_id_cid` element, or absent when no such element exists. -/
def mesh2pid (mesh : String) (env : Env) : Outcome (String × MeshRec) :=
  match safe_urlopen (env.server (searchUrl mesh)) with
  | none => .stall
  | some none => .ok (mesh, ⟨mesh, none, none⟩)
  | some (some r) =>
    match env.jsonParse r with
    | .error e => .error e
    | .ok j =>
      match searchCount j with
      | .error e => .error e
      | .ok count =>
        if jsonNeZero count then
          match searchSid j with
          | .error e => .error e
          | .ok sid =>
            match safe_urlopen (env.server (sidUrl sid)) with
            | none => .stall
            | some none => .error "NameError: name cid is not defined"
            | some (some xml) =>
              match env.xmlParse xml with
              | .error e => .error e
              | .ok root =>
                match root.cids with
                | [] => .ok (mesh, ⟨mesh, some sid, none⟩)
                | el :: _ =>
                  match el.texts with
                  | [] => .error "IndexError: list index out of range"
                  | t :: _ => .ok (mesh, ⟨mesh, some sid, some (Json.str t)⟩)
        else .ok (mesh, ⟨mesh, none, none⟩)

/-- Environment whose server returns 404 for every URL (a not-found fetch). -/
def env404 : Env :=
  ⟨fun _ => [⟨404, ""⟩], fun _ => .error "unused", fun _ => .error "unused"⟩

/-- Environment for a `cid2smile` success: the fetch returns a body whose XML
parse has one `CanonicalSMILES` element with text "CC". -/
def smileEnvOk : Env :=
  ⟨fun _ => [⟨200, "X"⟩], fun _ => .error "unused",
   fun s => if s = "X" then .ok ⟨[⟨["CC"]⟩], []⟩ else .error "unexpected body"⟩

/-- Environment for a `cid2smile` fetch whose XML has no `CanonicalSMILES`
element. -/
def smileEnvEmpty : Env :=
  ⟨fun _ => [⟨200, "Y"⟩], fun _ => .error "unused",
   fun s => if s = "Y" then .ok ⟨[], []⟩ else .error "unexpected body"⟩

/-- The decoded search result with a count of zero. -/
def jZero : Json := Json.obj [("esearchresult", Json.obj [("count", Json.num 0)])]

/-- Environment whose MeSH search succeeds with a zero-count JSON result. -/
def meshEnvZero : Env :=
  ⟨fun _ => [⟨200, "RZ"⟩],
   fun s => if s = "RZ" then .ok jZero else .error "unexpected body",
   fun _ => .error "unused"⟩

/-- The decoded search result with one hit, substance id "9". -/
def jOneHit : Json :=
  Json.obj [("esearchresult",
    Json.obj [("count", Json.num 1), ("idlist", Json.arr [Json.str "9"])])]

/-- Environment where the MeSH search finds substance id "9" but the follow-up
substance fetch returns 404 (`None`): the code path that reads the unassigned
variable `cid`. -/
def meshEnvBug : Env :=
  ⟨fun u => if u = searchUrl "aspirin" then [⟨200, "R"⟩] else [⟨404, ""⟩],
   fun s => if s = "R" then .ok jOneHit else .error "unexpected body",
   fun _ => .error "unused"⟩

/-- Result of `cids2inchis`: a dict keyed by the decoded `CID` values, or a flat
list, depending on `as_dict`. -/
inductive InchiRes where
  | dict : List (Json × Json) → InchiRes
  | list : List Json → InchiRes

/-- The InChIKey values held by a `cids2inchis` result, in either shape. -/
def InchiRes.values : InchiRes → List Json
  | .dict d => d.map (fun kv => kv.2)
  | .list l => l

/-- Result of `cids2upacs`: values may be the absent-sentinel (`np.nan`) when
the upstream property object lacks `IUPACName`. -/
inductive UpacsRes where
  | dict : List (Json × Option Json) → UpacsRes
  | list : List (Option Json) → UpacsRes

/-- Python dict insertion: an existing key keeps its position and gets the new
value; a new key is appended (insertion order preserved). -/
def pyDictInsert {β : Type} (d : List (Json × β)) (k : Json) (v : β) :
    List (Json × β) :=
  if d.any (fun kv => Json.beq kv.1 k) then
    d.map (fun kv => if Json.beq kv.1 k then (kv.1, v) else kv)
  else d ++ [(k, v)]

/-- A Python dict built from comprehension pairs (later duplicates overwrite). -/
def pyDictOf {β : Type} (pairs : List (Json × β)) : List (Json × β) :=
  pairs.foldl (fun d kv => pyDictInsert d kv.1 kv.2) []

/-- Python `d.update(nd)`. -/
def pyDictUpdate {β : Type} (d nd : List (Json × β)) : List (Json × β) :=
  nd.foldl (fun a kv => pyDictInsert a kv.1 kv.2) d

/-- The PUG-REST property URL built inside the `cids2inchis` loop. -/
def inchisUrl (ids : List String) (query_type : String) : String :=
  "https://pubchem.ncbi.nlm.nih.gov/rest/pug/compound/cid/" ++
    String.intercalate "," ids ++ "/property/" ++ query_type ++ "/JSON"

/-- The PUG-REST property URL built inside the `cids2upacs` loop. -/
def upacsUrl (ids : List String) : String :=
  "https://pubchem.ncbi.nlm.nih.gov/rest/pug/compound/cid/" ++
    String.intercalate "," ids ++ "/property/IUPACName/JSON"

/-- The subexpression `json.loads(r)['PropertyTable']['Properties']` of both
property resolvers, as an iterable. -/
def propList (j : Json) : Except String (List Json) :=
  match j.getItem "PropertyTable" with
  | .error e => .error e
  | .ok t =>
    match t.getItem "Properties" with
    | .error e => .error e
    | .ok p => p.asArr

/-- The comprehension `[p[query_type] for p in props]` of `cids2inchis`: a
direct subscript, so a property object without the field raises `KeyError`. -/
def inchisNewList (query_type : String) : List Json → Except String (List Json)
  | [] => .ok []
  | p :: rest =>
    match p.getItem query_type with
    | .error e => .error e
    | .ok v =>
      match inchisNewList query_type rest with
      | .error e => .error e
      | .ok vs => .ok (v :: vs)

/-- The comprehension `{p['CID'] : p[query_type] for p in props}` of
`cids2inchis`, as its ordered key/value pairs. -/
def inchisNewDict (query_type : String) :
    List Json → Except String (List (Json × Json))
  | [] => .ok []
  | p :: rest =>
    match p.getItem "CID" with
    | .error e => .error e
    | .ok k =>
      match p.getItem query_type with
      | .error e => .error e
      | .ok v =>
        match inchisNewDict query_type rest with
        | .error e => .error e
        | .ok kvs => .ok ((k, v) :: kvs)

/-- The comprehension `[__safe_object_access__(p, 'IUPACName') for p in props]`
of `cids2upacs`: a missing field becomes the absent-sentinel. -/
def upacsNewList : List Json → Except String (List (Option Json))
  | [] => .ok []
  | p :: rest =>
    match safe_object_access p "IUPACName" with
    | .error e => .error e
    | .ok v =>
      match upacsNewList rest with
      | .error e => .error e
      | .ok vs => .ok (v :: vs)

/-- The comprehension `{p['CID'] : __safe_object_access__(p, 'IUPACName') ...}`
of `cids2upacs`, as its ordered key/value pairs. -/
def upacsNewDict : List Json → Except String (List (Json × Option Json))
  | [] => .ok []
  | p :: rest =>
    match p.getItem "CID" with
    | .error e => .error e
    | .ok k =>
      match safe_object_access p "IUPACName" with
      | .error e => .error e
      | .ok v =>
        match upacsNewDict rest with
        | .error e => .error e
        | .ok kvs => .ok ((k, v) :: kvs)

/-- Python `ikey.split('-')[0]`: the substring before the first hyphen (the
whole string when it contains none; `''.split('-')[0]` is `''`). -/
def pySplitHeadStr (s : String) : String :=
  String.mk (s.data.takeWhile (fun c => c != '-'))

/-- The split applied to a decoded JSON value; Python raises `AttributeError`
when the value is not a string. -/
def pySplitHead : Json → Except String Json
  | .str s => .ok (.str (pySplitHeadStr s))
  | _ => .error "AttributeError: value has no attribute split"

/-- The list branch `[ikey.split('-')[0] for ikey in inchikeys]` of the
`use_prefix` block of `cids2inchis`. -/
def prefixMapList : List Json → Except String (List Json)
  | [] => .ok []
  | v :: rest =>
    match pySplitHead v with
    | .error e => .error e
    | .ok v2 =>
      match prefixMapList rest with
      | .error e => .error e
      | .ok vs => .ok (v2 :: vs)

/-- The dict branch `{cid : ikey.split('-')[0] for cid, ikey in ...}` of the
`use_prefix` block of `cids2inchis`. -/
def prefixMapDict : List (Json × Json) → Except String (List (Json × Json))
  | [] => .ok []
  | kv :: rest =>
    match pySplitHead kv.2 with
    | .error e => .error e
    | .ok v2 =>
      match prefixMapDict rest with
      | .error e => .error e
      | .ok kvs => .ok ((kv.1, v2) :: kvs)

/-- The `use_prefix=True` post-processing block of `cids2inchis` (id_map.py
lines 67-69): truncate every value to its part before the first hyphen, in
whichever shape the accumulator has. -/
def prefixTransform : InchiRes → Except String InchiRes
  | .dict d =>
    match prefixMapDict d with
    | .error e => .error e
    | .ok d2 => .ok (.dict d2)
  | .list l =>
    match prefixMapList l with
    | .error e => .error e
    | .ok l2 => .ok (.list l2)

/-- The per-chunk loop of `cids2inchis`: build the property URL for the chunk,
fetch, decode the JSON (Python `json.loads(None)` on a `None` fetch raises
`TypeError`), extract the property list and accumulate it into the dict or list
accumulator (whose shape was fixed by `as_dict` at initialisation). -/
def inchisLoop (env : Env) (keys : Bool) :
    List (List String) → InchiRes → Outcome InchiRes
  | [], acc => .ok acc
  | ids :: rest, acc =>
    match safe_urlopen
        (env.server (inchisUrl ids (if keys then "InChIKey" else "InChI"))) with
    | none => .stall
    | some none => .error "TypeError: the JSON object must be str, not NoneType"
    | some (some r) =>
      match env.jsonParse r with
      | .error e => .error e
      | .ok j =>
        match propList j with
        | .error e => .error e
        | .ok props =>
          match acc with
          | .dict d =>
            match inchisNewDict (if keys then "InChIKey" else "InChI") props with
            | .error e => .error e
            | .ok pairs =>
              inchisLoop env keys rest (.dict (pyDictUpdate d (pyDictOf pairs)))
          | .list l =>
            match inchisNewList (if keys then "InChIKey" else "InChI") props with
            | .error e => .error e
            | .ok nl => inchisLoop env keys rest (.list (l ++ nl))

/-- Shallow embedding of `cids2inchis` (id_map.py lines 11-71): stringify the
input ids, chunk them with `__divide_list__` (its `ValueError` on an empty
input propagates), run the fetch/parse loop, then apply the `use_prefix`
truncation when requested. -/
def cids2inchis (cids : List Int) (as_dict : Bool) ( use_prefix : Bool)
    (keys : Bool) (env : Env) : Outcome InchiRes :=
  match divide_list (cids.map toString) with
  | none => .error "ValueError: number sections must be larger than 0."
  | some chunks =>
    match inchisLoop env keys chunks (if as_dict then .dict [] else .list []) with
    | .stall => .stall
    | .error e => .error e
    | .ok res =>
      if use_prefix then
        match prefixTransform res with
        | .error e => .error e
        | .ok res2 => .ok res2
      else .ok res

/-- The per-chunk loop of `cids2upacs`, analogous to `inchisLoop` but reading
`IUPACName` through `__safe_object_access__`. -/
def upacsLoop (env : Env) :
    List (List String) → UpacsRes → Outcome UpacsRes
  | [], acc => .ok acc
  | ids :: rest, acc =>
    match safe_urlopen (env.server (upacsUrl ids)) with
    | none => .stall
    | some none => .error "TypeError: the JSON object must be str, not NoneType"
    | some (some r) =>
      match env.jsonParse r with
      | .error e => .error e
      | .ok j =>
        match propList j with
        | .error e => .error e
        | .ok props =>
          match acc with
          | .dict d =>
            match upacsNewDict props with
            | .error e => .error e
            | .ok pairs =>
              upacsLoop env rest (.dict (pyDictUpdate d (pyDictOf pairs)))
          | .list l =>
            match upacsNewList props with
            | .error e => .error e
            | .ok nl => upacsLoop env rest (.list (l ++ nl))

/-- Shallow embedding of `cids2upacs` (id_map.py lines 81-107). -/
def cids2upacs (cids : List Int) (as_dict : Bool) (env : Env) :
    Outcome UpacsRes :=
  match divide_list (cids.map toString) with
  | none => .error "ValueError: number sections must be larger than 0."
  | some chunks =>
    upacsLoop env chunks (if as_dict then .dict [] else .list [])

/-- Decoded property table whose single property object carries a `CID` but
neither an `InChIKey` nor an `IUPACName`. -/
def jPropsNoField : Json :=
  Json.obj [("PropertyTable",
    Json.obj [("Properties", Json.arr [Json.obj [("CID", Json.num 1)]])])]

/-- Environment serving the field-less property object for every URL. -/
def envC6 : Env :=
  ⟨fun _ => [⟨200, "P"⟩],
   fun s => if s = "P" then .ok jPropsNoField else .error "unexpected body",
   fun _ => .error "unused"⟩

/-- Decoded property table whose single property object has CID 1 and the
InChIKey "ABCDEF-UHFFFAOYSA-N". -/
def jPropsInchi : Json :=
  Json.obj [("PropertyTable", Json.obj [("Properties",
    Json.arr [Json.obj
      [("CID", Json.num 1), ("InChIKey", Json.str "ABCDEF-UHFFFAOYSA-N")]])])]

/-- Environment serving that InChIKey property object for every URL. -/
def envC8 : Env :=
  ⟨fun _ => [⟨200, "PI"⟩],
   fun s => if s = "PI" then .ok jPropsInchi else .error "unexpected body",
   fun _ => .error "unused"⟩

/-- Responses with status 429 or 503 are consumed by the retry loop without
producing a result. -/
theorem safe_urlopen_skip_transient (pre : List Response)
    (h : ∀ r ∈ pre, r.status = 429 ∨ r.status = 503) (rest : List Response) :
    safe_urlopen (pre ++ rest) = safe_urlopen rest := by
  induction pre with
  | nil => rfl
  | cons r pre ih =>
    have hr := h r (List.mem_cons_self r pre)
    have hrest : ∀ x ∈ pre, x.status = 429 ∨ x.status = 503 :=
      fun x hx => h x (List.mem_cons_of_mem r hx)
    rcases hr with h429 | h503
    · simp [safe_urlopen, h429, ih hrest]
    · simp [safe_urlopen, h503, ih hrest]

/-- C1: the fetcher's return value is determined by the statuses it sees: a 200
response returns its body verbatim; a 404 returns the absent value; any finite
run of 429/503 responses followed by a 200 returns that 200's body; and any other
status returns a silent `None` (control falls off the end of the function)
rather than raising. -/
theorem safe_urlopen_status_cases :
    (∀ (b : String) (rest : List Response),
        safe_urlopen (⟨200, b⟩ :: rest) = some (some b)) ∧
    (∀ (c : String) (rest : List Response),
        safe_urlopen (⟨404, c⟩ :: rest) = some none) ∧
    (∀ (pre : List Response) (b : String) (rest : List Response),
        (∀ r ∈ pre, r.status = 429 ∨ r.status = 503) →
        safe_urlopen (pre ++ ⟨200, b⟩ :: rest) = some (some b)) ∧
    (∀ (s : Nat) (c : String) (rest : List Response),
        s ≠ 200 → s ≠ 429 → s ≠ 503 → s ≠ 404 →
        safe_urlopen (⟨s, c⟩ :: rest) = some none) := by
  refine ⟨fun b rest => rfl, fun c rest => rfl, ?_, ?_⟩
  · intro pre b rest h
    rw [safe_urlopen_skip_transient pre h]
    rfl
  · intro s c rest h200 h429 h503 h404
    simp [safe_urlopen, h200, h429, h503, h404]

/-- Witness for C1: a mocked 429 then 503 then 200 yields the 200 body, and a
mocked 500 yields the silent absent value. -/
theorem safe_urlopen_status_cases_witness :
    safe_urlopen [⟨429, "x"⟩, ⟨503, "y"⟩, ⟨200, "B"⟩] = some (some "B") ∧
    safe_urlopen [⟨500, "E"⟩] = some none :=
  ⟨safe_urlopen_status_cases.2.2.1 [⟨429, "x"⟩, ⟨503, "y"⟩] "B" [] (by decide),
   safe_urlopen_status_cases.2.2.2 500 "E" [] (by decide) (by decide) (by decide)
     (by decide)⟩

/-- C9: if every response to a URL is 429 or 503, the retry loop consumes the
whole (arbitrarily long, finite) response stream without ever returning: the
recursion in `__safe_urlopen__` has no attempt cap, so the call stalls. -/
theorem safe_urlopen_stalls (l : List Response)
    (h : ∀ r ∈ l, r.status = 429 ∨ r.status = 503) :
    safe_urlopen l = none := by
  have h1 := safe_urlopen_skip_transient l h []
  rw [List.append_nil] at h1
  exact h1

/-- Witness for C9: a concrete all-429/503 stream produces no result. -/
theorem safe_urlopen_stalls_witness :
    safe_urlopen [⟨429, "a"⟩, ⟨503, "b"⟩, ⟨429, "c"⟩] = none :=
  safe_urlopen_stalls [⟨429, "a"⟩, ⟨503, "b"⟩, ⟨429, "c"⟩] (by decide)

/-- A threshold map over `List.range` whose threshold covers the whole range is
constant. -/
theorem rangeMap_ite_all {α : Type} {a b : α} (k m : Nat) (h : k ≤ m) :
    (List.range k).map (fun i => if i < m then a else b) = List.replicate k a := by
  induction k with
  | zero => rfl
  | succ k ih =>
    rw [List.range_succ, List.map_append, ih (Nat.le_of_succ_le h)]
    have hk : k < m := h
    simp [hk, List.replicate_succ']

/-- A threshold map over `List.range` splits into a block of the first value
followed by a block of the second. -/
theorem rangeMap_ite_split {α : Type} {a b : α} (k m : Nat) (h : m ≤ k) :
    (List.range k).map (fun i => if i < m then a else b) =
      List.replicate m a ++ List.replicate (k - m) b := by
  induction k with
  | zero =>
    have hm : m = 0 := Nat.le_zero.mp h
    simp [hm]
  | succ k ih =>
    rcases Nat.lt_or_ge k m with hk | hk
    · have hm : m = k + 1 := Nat.le_antisymm h hk
      subst hm
      rw [rangeMap_ite_all (k + 1) (k + 1) (Nat.le_refl _)]
      simp
    · rw [List.range_succ, List.map_append, ih hk]
      have hnot : ¬ k < m := Nat.not_lt.mpr hk
      have hsub : k + 1 - m = (k - m) + 1 := by omega
      simp only [List.map_cons, List.map_nil, if_neg hnot, hsub,
        List.replicate_succ', List.append_assoc]

/-- The numpy section sizes always add up to the array length. -/
theorem splitSizes_sum (n k : Nat) (hk : 0 < k) : (splitSizes n k).sum = n := by
  have hmk : n % k ≤ k := Nat.le_of_lt (Nat.mod_lt n hk)
  have h1 : k * (n / k) + n % k = n := Nat.div_add_mod n k
  have hab : n % k * (n / k) ≤ k * (n / k) := Nat.mul_le_mul_right _ hmk
  rw [splitSizes, rangeMap_ite_split k (n % k) hmk, List.sum_append,
    List.sum_replicate, List.sum_replicate, smul_eq_mul, smul_eq_mul,
    Nat.mul_succ, Nat.sub_mul]
  generalize hA : n % k * (n / k) = A at hab ⊢
  generalize hB : k * (n / k) = B at hab h1 ⊢
  generalize hr : n % k = r at h1 ⊢
  omega

/-- There are exactly `k` numpy sections. -/
theorem splitSizes_length (n k : Nat) : (splitSizes n k).length = k := by
  simp [splitSizes]

/-- With at least `⌈n / 100⌉` sections covering `n` elements, every numpy
section size is at most 100. -/
theorem splitSizes_le (n k : Nat) (hk : 0 < k) (hnk : n ≤ 100 * k) :
    ∀ s ∈ splitSizes n k, s ≤ 100 := by
  intro s hs
  simp only [splitSizes, List.mem_map, List.mem_range] at hs
  obtain ⟨i, hi, rfl⟩ := hs
  by_cases hcase : i < n % k
  · rw [if_pos hcase]
    have hne : n ≠ 100 * k := by
      intro heq
      rw [heq, Nat.mul_mod_left] at hcase
      exact Nat.not_lt_zero i hcase
    have hlt : n < 100 * k := Nat.lt_of_le_of_ne hnk hne
    have hdiv : n / k < 100 := by
      rw [Nat.div_lt_iff_lt_mul hk]
      exact hlt
    exact hdiv
  · rw [if_neg hcase]
    have hdiv : n / k < 101 := by
      rw [Nat.div_lt_iff_lt_mul hk]
      omega
    exact Nat.lt_succ_iff.mp hdiv

/-- Cutting by sizes whose sum fits in the list yields chunks of exactly those
sizes. -/
theorem takeChunks_map_length {α : Type} (ss : List Nat) (l : List α)
    (h : ss.sum ≤ l.length) :
    (takeChunks ss l).map List.length = ss := by
  induction ss generalizing l with
  | nil => rfl
  | cons s ss ih =>
    rw [List.sum_cons] at h
    have hs : s ≤ l.length := by omega
    have hrest : ss.sum ≤ (l.drop s).length := by
      rw [List.length_drop]; omega
    simp only [takeChunks, List.map_cons, List.length_take]
    rw [Nat.min_eq_left hs, ih (l.drop s) hrest]

/-- Cutting by sizes that cover the whole list concatenates back to the list. -/
theorem takeChunks_join {α : Type} (ss : List Nat) (l : List α)
    (h : l.length ≤ ss.sum) :
    (takeChunks ss l).flatten = l := by
  induction ss generalizing l with
  | nil =>
    have h0 : l.length = 0 := Nat.le_zero.mp (by simpa using h)
    have hl : l = [] := List.eq_nil_of_length_eq_zero h0
    simp [takeChunks, hl]
  | cons s ss ih =>
    rw [List.sum_cons] at h
    have hrest : (l.drop s).length ≤ ss.sum := by
      rw [List.length_drop]; omega
    simp only [takeChunks, List.flatten_cons]
    rw [ih (l.drop s) hrest, List.take_append_drop]

/-- C2: on a non-empty list of length `n`, `__divide_list__` succeeds and
returns exactly `⌈n / 100⌉ = (n + 99) / 100` contiguous chunks that concatenate
back to the input (hence preserve order within and across chunks), each of
length at most 100. -/
theorem divide_list_spec (l : List String) (h : l ≠ []) :
    ∃ cs, divide_list l = some cs ∧
      cs.length = (l.length + 99) / 100 ∧
      cs.flatten = l ∧
      ∀ c ∈ cs, c.length ≤ 100 := by
  have hn : 0 < l.length := List.length_pos.mpr h
  have hk : 0 < (l.length + 99) / 100 := by omega
  have hnk : l.length ≤ 100 * ((l.length + 99) / 100) := by omega
  have hsum : (splitSizes l.length ((l.length + 99) / 100)).sum = l.length :=
    splitSizes_sum l.length ((l.length + 99) / 100) hk
  have hlen := takeChunks_map_length (splitSizes l.length ((l.length + 99) / 100)) l
    (Nat.le_of_eq hsum)
  refine ⟨takeChunks (splitSizes l.length ((l.length + 99) / 100)) l, ?_, ?_, ?_, ?_⟩
  · rw [divide_list, array_split, if_neg (Nat.pos_iff_ne_zero.mp hk)]
  · have h2 := congrArg List.length hlen
    rw [List.length_map] at h2
    rw [h2, splitSizes_length]
  · exact takeChunks_join (splitSizes l.length ((l.length + 99) / 100)) l
      (Nat.le_of_eq hsum.symm)
  · intro c hc
    have hmem : c.length ∈
        (takeChunks (splitSizes l.length ((l.length + 99) / 100)) l).map List.length :=
      List.mem_map_of_mem List.length hc
    rw [hlen] at hmem
    exact splitSizes_le l.length ((l.length + 99) / 100) hk hnk c.length hmem

/-- Witness for C2 at a concrete three-element list (one chunk). -/
theorem divide_list_spec_witness :
    ∃ cs, divide_list ["a", "b", "c"] = some cs ∧
      cs.length = ((["a", "b", "c"] : List String).length + 99) / 100 ∧
      cs.flatten = ["a", "b", "c"] ∧
      ∀ c ∈ cs, c.length ≤ 100 :=
  divide_list_spec ["a", "b", "c"] (by decide)

/-- C3 counterexample: on the empty list `__divide_list__` does not return at
all — `num_divisions` is 0 and `np.array_split` raises `ValueError`, so there is
no returned chunk sequence. -/
theorem divide_list_nil_counterexample :
    ¬ ∃ cs : List (List String), divide_list [] = some cs := by
  intro hcs
  obtain ⟨cs, hcs⟩ := hcs
  have hnone : divide_list ([] : List String) = none := rfl
  rw [hnone] at hcs
  exact Option.noConfusion hcs

/-- C3 (amended): for the empty input list `__divide_list__` fails —
`int(math.ceil(0 / 100)) = 0` sections makes `np.array_split` raise
`ValueError: number sections must be larger than 0.` (modelled as `none`) —
rather than returning an empty chunk sequence. -/
theorem divide_list_nil_fails : divide_list [] = none := rfl

/-- C7: `cid2smile` returns the absent-sentinel (not an error) when the fetch
returns not-found; when the fetch returns a body it extracts the first text of
the namespaced `CanonicalSMILES` element; and when the parsed XML lacks that
element it fails with an uncaught parse-stage (`IndexError`) exception. -/
theorem cid2smile_spec (cid : String) (env : Env) :
    (safe_urlopen (env.server (smileUrl cid)) = some none →
      cid2smile cid env = .ok none) ∧
    (∀ (xml : String) (root : XmlRoot) (el : XmlElem) (els : List XmlElem)
        (t : String) (ts : List String),
      safe_urlopen (env.server (smileUrl cid)) = some (some xml) →
      env.xmlParse xml = .ok root → root.smiles = el :: els → el.texts = t :: ts →
      cid2smile cid env = .ok (some t)) ∧
    (∀ (xml : String) (root : XmlRoot),
      safe_urlopen (env.server (smileUrl cid)) = some (some xml) →
      env.xmlParse xml = .ok root → root.smiles = [] →
      ∃ e, cid2smile cid env = .error e) := by
  refine ⟨?_, ?_, ?_⟩
  · intro h1
    unfold cid2smile
    rw [h1]
  · intro xml root el els t ts h1 h2 h3 h4
    simp [cid2smile, h1, h2, h3, h4]
  · intro xml root h1 h2 h3
    refine ⟨"IndexError: list index out of range", ?_⟩
    simp [cid2smile, h1, h2, h3]

/-- Witness for C7: a mocked 404 yields absent, a mocked body with a
`CanonicalSMILES` element yields its text, and a mocked body without one raises. -/
theorem cid2smile_spec_witness :
    cid2smile "10" env404 = .ok none ∧
    cid2smile "10" smileEnvOk = .ok (some "CC") ∧
    ∃ e, cid2smile "10" smileEnvEmpty = .error e :=
  ⟨(cid2smile_spec "10" env404).1 rfl,
   (cid2smile_spec "10" smileEnvOk).2.1 "X" ⟨[⟨["CC"]⟩], []⟩ ⟨["CC"]⟩ [] "CC" []
     rfl rfl rfl rfl,
   (cid2smile_spec "10" smileEnvEmpty).2.2 "Y" ⟨[], []⟩ rfl rfl rfl⟩

/-- C5: when the E-utilities search fetch returns absent, or the decoded search
count is the number 0, `mesh2pid` returns the single-entry mapping from the term
to the record with the term and both ids absent. -/
theorem mesh2pid_absent_or_zero (mesh : String) (env : Env) :
    (safe_urlopen (env.server (searchUrl mesh)) = some none →
      mesh2pid mesh env = .ok (mesh, ⟨mesh, none, none⟩)) ∧
    (∀ (r : String) (j : Json),
      safe_urlopen (env.server (searchUrl mesh)) = some (some r) →
      env.jsonParse r = .ok j →
      searchCount j = .ok (Json.num 0) →
      mesh2pid mesh env = .ok (mesh, ⟨mesh, none, none⟩)) := by
  constructor
  · intro h1
    unfold mesh2pid
    rw [h1]
  · intro r j h1 h2 h3
    simp [mesh2pid, h1, h2, h3, jsonNeZero]

/-- Witness for C5: a 404 search fetch and a zero-count search result both
produce the all-absent record for the term. -/
theorem mesh2pid_absent_or_zero_witness :
    mesh2pid "nonexistent-term" env404 =
      .ok ("nonexistent-term", ⟨"nonexistent-term", none, none⟩) ∧
    mesh2pid "nonexistent-term" meshEnvZero =
      .ok ("nonexistent-term", ⟨"nonexistent-term", none, none⟩) :=
  ⟨(mesh2pid_absent_or_zero "nonexistent-term" env404).1 rfl,
   (mesh2pid_absent_or_zero "nonexistent-term" meshEnvZero).2 "RZ" jZero
     rfl rfl rfl⟩

/-- C4 (code bug): when the search succeeds with a nonzero count but the
substance-to-compound fetch returns absent, `mesh2pid` does not return the
uniform single-entry mapping: the source executes
`return {mesh : {'mesh' : mesh, 'sid' : sid, 'cid' : cid}}` with the local
variable `cid` never assigned on that path, raising `NameError`. -/
theorem mesh2pid_undefined_cid :
    mesh2pid "aspirin" meshEnvBug = .error "NameError: name cid is not defined" :=
  rfl

/-- C6 counterexample: `cids2inchis` subscripts each property object directly
(`p[query_type]`, no `__safe_object_access__`), so a response whose property
object lacks the requested `InChIKey` field makes the resolver fail with
`KeyError` instead of yielding an absent-sentinel. -/
theorem cids2inchis_missing_field_error :
    cids2inchis [1] false false true envC6 = .error "KeyError: InChIKey" := rfl

/-- C6 (amended): only `cids2upacs` goes through `__safe_object_access__`, so a
property object missing `IUPACName` resolves to the absent-sentinel there, for
every such response; `cids2inchis` instead fails with `KeyError` when the
object lacks the requested `InChIKey`/`InChI` field. -/
theorem upacs_missing_field_absent :
    (∀ props : List Json,
      (∀ p ∈ props, ∃ kvs, p = Json.obj kvs ∧ kvs.lookup "IUPACName" = none) →
      upacsNewList props = .ok (props.map (fun _ => (none : Option Json)))) ∧
    cids2upacs [1] false envC6 = .ok (.list [none]) ∧
    cids2inchis [2] false false true envC6 = .error "KeyError: InChIKey" := by
  refine ⟨?_, rfl, rfl⟩
  intro props h
  induction props with
  | nil => rfl
  | cons p rest ih =>
    obtain ⟨kvs, hp, hl⟩ := h p (List.mem_cons_self p rest)
    have hrest := fun x hx => h x (List.mem_cons_of_mem p hx)
    subst hp
    simp [upacsNewList, safe_object_access, hl, ih hrest]

/-- Witness for C6 (amended) at a concrete one-object property list. -/
theorem upacs_missing_field_absent_witness :
    upacsNewList [Json.obj [("CID", Json.num 7)]] = .ok [none] :=
  upacs_missing_field_absent.1 [Json.obj [("CID", Json.num 7)]]
    (by
      intro p hp
      simp only [List.mem_singleton] at hp
      subst hp
      exact ⟨[("CID", Json.num 7)], rfl, rfl⟩)

/-- C8: under `use_prefix=True` every string value, in both the dict and the
list shape, is replaced by `value.split('-')[0]`, the substring before its
first hyphen; in particular "ABCDEF-UHFFFAOYSA-N" becomes "ABCDEF", also
end-to-end through `cids2inchis`. -/
theorem prefix_truncates_values :
    (∀ vs : List String,
      prefixMapList (vs.map Json.str) =
        .ok (vs.map (fun s => Json.str (pySplitHeadStr s)))) ∧
    (∀ d : List (Json × String),
      prefixMapDict (d.map (fun kv => (kv.1, Json.str kv.2))) =
        .ok (d.map (fun kv => (kv.1, Json.str (pySplitHeadStr kv.2))))) ∧
    pySplitHeadStr "ABCDEF-UHFFFAOYSA-N" = "ABCDEF" ∧
    cids2inchis [1] false true true envC8 = .ok (.list [Json.str "ABCDEF"]) := by
  refine ⟨?_, ?_, rfl, rfl⟩
  · intro vs
    induction vs with
    | nil => rfl
    | cons v rest ih => simp [prefixMapList, pySplitHead, ih]
  · intro d
    induction d with
    | nil => rfl
    | cons kv rest ih => simp [prefixMapDict, pySplitHead, ih]

/-- A hyphen-free string is unchanged by `split('-')[0]`. -/
theorem pySplitHeadStr_id (s : String) (h : '-' ∉ s.data) :
    pySplitHeadStr s = s := by
  have hall : ∀ c ∈ s.data, (c != '-') = true := by
    intro c hc
    simp only [bne_iff_ne, ne_eq]
    intro hcontra
    subst hcontra
    exact h hc
  rw [pySplitHeadStr, List.takeWhile_eq_self_iff.mpr hall]

/-- The list branch of the prefix block fixes hyphen-free string values. -/
theorem prefixMapList_id (l : List Json)
    (h : ∀ v ∈ l, ∃ s, v = Json.str s ∧ '-' ∉ s.data) :
    prefixMapList l = .ok l := by
  induction l with
  | nil => rfl
  | cons v rest ih =>
    obtain ⟨s, hv, hh⟩ := h v (List.mem_cons_self v rest)
    have hrest := fun x hx => h x (List.mem_cons_of_mem v hx)
    subst hv
    simp [prefixMapList, pySplitHead, pySplitHeadStr_id s hh, ih hrest]

/-- The dict branch of the prefix block fixes hyphen-free string values. -/
theorem prefixMapDict_id (d : List (Json × Json))
    (h : ∀ v ∈ d.map (fun kv => kv.2), ∃ s, v = Json.str s ∧ '-' ∉ s.data) :
    prefixMapDict d = .ok d := by
  induction d with
  | nil => rfl
  | cons kv rest ih =>
    obtain ⟨k, v⟩ := kv
    obtain ⟨s, hv, hh⟩ := h v (by simp)
    have hrest : ∀ x ∈ rest.map (fun kv => kv.2),
        ∃ s, x = Json.str s ∧ '-' ∉ s.data := by
      intro x hx
      refine h x ?_
      simp only [List.map_cons, List.mem_cons]
      exact Or.inr hx
    subst hv
    simp [prefixMapDict, pySplitHead, pySplitHeadStr_id s hh, ih hrest]

/-- C10: the `use_prefix=True` transformation of `cids2inchis` is the identity
on results whose values are hyphen-free strings (splitting on a hyphen and
keeping the first part changes nothing), in both the dict and the list shape. -/
theorem prefix_id_on_hyphen_free (res : InchiRes)
    (h : ∀ v ∈ res.values, ∃ s, v = Json.str s ∧ '-' ∉ s.data) :
    prefixTransform res = .ok res := by
  cases res with
  | dict d =>
    simp only [InchiRes.values] at h
    simp [prefixTransform, prefixMapDict_id d h]
  | list l =>
    simp only [InchiRes.values] at h
    simp [prefixTransform, prefixMapList_id l h]

/-- Witness for C10 at a concrete hyphen-free singleton result. -/
theorem prefix_id_on_hyphen_free_witness :
    prefixTransform (InchiRes.list [Json.str "ABCDEF"]) =
      .ok (InchiRes.list [Json.str "ABCDEF"]) :=
  prefix_id_on_hyphen_free (InchiRes.list [Json.str "ABCDEF"])
    (by
      intro v hv
      simp only [InchiRes.values, List.mem_singleton] at hv
      subst hv
      exact ⟨"ABCDEF", rfl, by decide⟩)

end Chemidr
